import Mathlib

/-!
Verification of the document-chunking pipeline and the multi-query
comprehensive retrieval engine of the rag_fill2 repository.

The Python sources are shallowly embedded: text is `List Char`, Python
floats are modelled as exact rationals `ℚ`, dictionaries carrying chunk
metadata are modelled as structures whose fields are the keys the code
reads (with the code's `.get` defaults), and the external services
(MD5 digests, the numpy RNG, the embedding provider, the vector index)
are uninterpreted function parameters.  Regular-expression operations
are implemented as direct character scans with the same matching
semantics as the `re` calls they translate (MULTILINE anchors are
modelled line-wise).
-/

/-- Python `\s` whitespace class (ASCII range, as produced by the pipeline). -/
def isPySpace (c : Char) : Bool :=
  c = ' ' || c = '\t' || c = '\n' || c = '\r' || c = '\x0b' || c = '\x0c'

/-- Python `str.lower` on the ASCII texts the pipeline handles. -/
def pyLower (s : List Char) : List Char :=
  s.map Char.toLower

/-- Python `str.strip()`: drop leading and trailing whitespace. -/
def pyStrip (s : List Char) : List Char :=
  ((s.dropWhile isPySpace).reverse.dropWhile isPySpace).reverse

/-- Does `pat` occur at the head of `s`? -/
def startsWith : List Char → List Char → Bool
  | [], _ => true
  | _ :: _, [] => false
  | p :: ps, c :: cs => p = c && startsWith ps cs

/-- Python `pat in s` substring containment. -/
def pyContains (s pat : List Char) : Bool :=
  match s with
  | [] => startsWith pat []
  | _ :: rest => startsWith pat s || pyContains rest pat

/-- Python `s.count(pat)` for a non-empty pattern: count non-overlapping
left-to-right occurrences.  The fuel argument (instantiated with the text
length, an upper bound on the number of scan steps) makes the definition
structurally recursive, so it evaluates by kernel reduction. -/
def pyCountF : Nat → List Char → List Char → Nat
  | 0, _, _ => 0
  | _ + 1, [], _ => 0
  | fuel + 1, c :: rest, pat =>
    if startsWith pat (c :: rest) && pat.length ≥ 1 then
      1 + pyCountF fuel ((c :: rest).drop pat.length) pat
    else
      pyCountF fuel rest pat

def pyCount (s pat : List Char) : Nat :=
  pyCountF s.length s pat

/-- Python `s.replace(old, new)` for non-empty `old`: replace all
non-overlapping occurrences left to right (fuel as in `pyCountF`). -/
def pyReplaceF : Nat → List Char → List Char → List Char → List Char
  | 0, s, _, _ => s
  | _ + 1, [], _, _ => []
  | fuel + 1, c :: rest, old, new =>
    if startsWith old (c :: rest) && old.length ≥ 1 then
      new ++ pyReplaceF fuel ((c :: rest).drop old.length) old new
    else
      c :: pyReplaceF fuel rest old new

def pyReplace (s old new : List Char) : List Char :=
  pyReplaceF s.length s old new

/-- Python `str.split()` with no arguments: split on whitespace runs,
dropping empty pieces; single pass with an accumulator for the word
currently being read (kept reversed). -/
def pySplitGo (cur : List Char) : List Char → List (List Char)
  | [] => if cur.isEmpty then [] else [cur.reverse]
  | c :: rest =>
    if isPySpace c then
      if cur.isEmpty then pySplitGo [] rest
      else cur.reverse :: pySplitGo [] rest
    else pySplitGo (c :: cur) rest

def pySplit (s : List Char) : List (List Char) :=
  pySplitGo [] s

/-- Python `s.split(sep)` for a single separator character: keeps empty
pieces (e.g. splitting `"a..b"` at the dot gives `["a", "", "b"]`). -/
def pySplitOn (sep : Char) : List Char → List (List Char)
  | [] => [[]]
  | c :: rest =>
    if c = sep then [] :: pySplitOn sep rest
    else
      match pySplitOn sep rest with
      | [] => [[c]]
      | piece :: pieces => (c :: piece) :: pieces

/-- Characters treated as sentence-ending punctuation by the pipeline. -/
def isSentencePunct (c : Char) : Bool :=
  c = '.' || c = '!' || c = '?'

/-- Regex `re.split` on one-or-more sentence punctuation: split on maximal runs;
a run produces a single cut (no empty middle pieces).  Single pass: `cur`
is the piece being read (reversed) and `inRun` tracks whether the previous
character belonged to a punctuation run. -/
def splitSentenceRunsGo (cur : List Char) (inRun : Bool) :
    List Char → List (List Char)
  | [] => [cur.reverse]
  | c :: rest =>
    if isSentencePunct c then
      if inRun then splitSentenceRunsGo cur true rest
      else cur.reverse :: splitSentenceRunsGo [] true rest
    else splitSentenceRunsGo (c :: cur) false rest

def splitSentenceRuns (s : List Char) : List (List Char) :=
  splitSentenceRunsGo [] false s

/-- Number of distinct characters in a list. -/
def distinctCount (s : List Char) : Nat :=
  s.eraseDups.length

/-- Python `s.split` at newline characters. -/
def pyLines (s : List Char) : List (List Char) :=
  pySplitOn '\n' s

/-- Python `\w` word character (ASCII). -/
def isWordChar (c : Char) : Bool :=
  c.isAlphanum || c = '_'

/-- Decompose text into maximal word-character tokens, each paired with the
separator run that follows it (leading separators are discarded).  This is
the information the `\b`-anchored `re.findall` counts below depend on. -/
def toksSepsGo (pending : Option (List Char × List Char)) :
    List Char → List (List Char × List Char)
  | [] =>
    match pending with
    | none => []
    | some (tok, sep) => [(tok.reverse, sep.reverse)]
  | c :: rest =>
    match pending with
    | none =>
      if isWordChar c then toksSepsGo (some ([c], [])) rest
      else toksSepsGo none rest
    | some (tok, sep) =>
      if isWordChar c then
        if sep.isEmpty then toksSepsGo (some (c :: tok, [])) rest
        else (tok.reverse, sep.reverse) :: toksSepsGo (some ([c], [])) rest
      else toksSepsGo (some (tok, c :: sep)) rest

def toksSeps (s : List Char) : List (List Char × List Char) :=
  toksSepsGo none s

/-- The maximal word-character tokens of a text. -/
def wordTokens (s : List Char) : List (List Char) :=
  (toksSeps s).map Prod.fst

/-- A `\b`-delimited pattern built from word characters matches exactly the
whole-token occurrences, so each `re.findall` count below is the number of
tokens satisfying the token-level predicate. -/
def countTokens (p : List Char → Bool) (s : List Char) : Nat :=
  ((wordTokens s).filter p).length

def allDigitsTok (t : List Char) : Bool :=
  !t.isEmpty && t.all Char.isDigit

/-- Regex `re.findall(r'\b[A-Z][a-z]+\b', text)` count. -/
def capWordCount (s : List Char) : Nat :=
  countTokens (fun t =>
    match t with
    | [] => false
    | c :: cs => c.isUpper && !cs.isEmpty && cs.all Char.isLower) s

/-- Regex `re.findall(r'\b\d+\b', text)` count. -/
def plainNumCount (s : List Char) : Nat :=
  countTokens allDigitsTok s

/-- Regex `re.findall(r'\b[A-Z0-9]{2,}\b', text)` count. -/
def codeCount (s : List Char) : Nat :=
  countTokens (fun t => t.length ≥ 2 && t.all (fun c => c.isUpper || c.isDigit)) s

/-- Regex `re.findall(r'\b[A-Z]{2,}\b', text)` count. -/
def abbrevCount (s : List Char) : Nat :=
  countTokens (fun t => t.length ≥ 2 && t.all Char.isUpper) s

/-- Regex `re.findall(r'\b\d+(?:\.\d+)?\b', text)` count over the token/separator
decomposition: a digit token joined to the next token by exactly a dot
merges with it into a single decimal match when that next token is all
digits; otherwise each all-digit token is one match. -/
def floatNumGo : List (List Char × List Char) → Nat
  | [] => 0
  | [(t, _)] => if allDigitsTok t then 1 else 0
  | (t, sep) :: (t2, s2) :: rest2 =>
    if allDigitsTok t then
      if sep = ['.'] && allDigitsTok t2 then 1 + floatNumGo rest2
      else 1 + floatNumGo ((t2, s2) :: rest2)
    else floatNumGo ((t2, s2) :: rest2)

def floatNumCount (s : List Char) : Nat :=
  floatNumGo (toksSeps s)

/-- The technical-indicator vocabulary of `_has_technical_terms`. -/
def technicalIndicators : List (List Char) :=
  ["medical", "clinical", "diagnostic", "therapeutic", "surgical",
   "patient", "physician", "hospital", "healthcare",
   "specification", "parameter", "calibration", "measurement",
   "accuracy", "precision", "frequency", "voltage", "current",
   "temperature", "pressure", "humidity", "sterilization",
   "compliance", "validation", "verification", "regulation",
   "standard", "requirement", "guideline", "protocol",
   "manual", "guide", "instruction", "procedure", "checklist"
  ].map String.data

/-- Embeds `DocumentProcessor._has_technical_terms`. -/
def has_technical_terms (text : List Char) : Bool :=
  technicalIndicators.any (fun term => pyContains (pyLower text) term)

/-- Regex `re.search(r'[A-Za-z\s]+:\s*(?:$|_|\.\.\.)', content)`: some colon is
preceded by a letter-or-whitespace character and followed, after optional
whitespace, by the end of the string, an underscore, or three dots. -/
def formFieldGo : Option Char → List Char → Bool
  | _, [] => false
  | prev, c :: rest =>
    (c = ':' &&
      (match prev with
       | some p => p.isAlpha || isPySpace p
       | none => false) &&
      (let after := rest.dropWhile isPySpace
       after.isEmpty || after.headD ' ' = '_' || startsWith "...".data after))
    || formFieldGo (some c) rest

def form_field_search (content : List Char) : Bool :=
  formFieldGo none content

/-- The high-importance vocabulary of `_calculate_importance_score`. -/
def highImportanceTerms : List (List Char) :=
  ["device name", "model number", "serial number", "manufacturer",
   "document number", "version", "date", "specification",
   "requirements", "standards", "compliance", "approval",
   "certification", "generic name", "intended use"].map String.data

/-- Embeds `DocumentProcessor._calculate_importance_score`.  The sequence of
float `+=` updates is modelled as one exact rational sum of the
conditionally-added bonuses on top of the base score `0.5`. -/
def calculate_importance_score (text : List Char) : ℚ :=
  let text_lower := pyLower text
  let numbers := floatNumCount text
  let abbreviations := abbrevCount text
  let score : ℚ := 1/2
    + ((highImportanceTerms.filter
        (fun term => pyContains text_lower term)).length : ℚ) * (1/10)
    + (if pyContains text [':'] &&
          (["name", "number", "date", "model", "manufacturer"].map
            String.data).any (fun f => pyContains text_lower f)
       then 1/5 else 0)
    + (if ([':', ';', '(', ')', '[', ']', '{', '}'] : List Char).any
          (fun c => pyContains text [c])
       then 1/20 else 0)
    + (if numbers ≠ 0 then min ((numbers : ℚ) * (1/50)) (3/20) else 0)
    + (if abbreviations ≠ 0 then
         min ((abbreviations : ℚ) * (3/100)) (1/10) else 0)
  min score 1

/-- Embeds `DocumentProcessor._calculate_entity_density`. -/
def calculate_entity_density (text : List Char) : ℚ :=
  let words := pySplit text
  if words.isEmpty then 0
  else
    let entity_count :=
      capWordCount text + plainNumCount text + codeCount text + abbrevCount text
    min ((entity_count : ℚ) / (words.length : ℚ)) 1

/-- Embeds `DocumentProcessor._calculate_information_richness`: the sequential
float `+=` bonuses, as one exact rational sum. -/
def calculate_information_richness (text : List Char) : ℚ :=
  let sentences := pySplitOn '.' text
  let uniquePunct :=
    distinctCount (text.filter (fun c => ".,;:!?()[]{}".data.contains c))
  let words := pySplit (pyLower text)
  let richness : ℚ :=
    (if sentences.length > 1 then
       let avg : ℚ :=
         ((sentences.map (fun s => ((pySplit s).length : ℚ))).sum) /
           (sentences.length : ℚ)
       if 5 ≤ avg ∧ avg ≤ 25 then 1/5 else 0
     else 0)
    + min ((uniquePunct : ℚ) * (1/20)) (3/10)
    + (if !words.isEmpty then
         min ((words.eraseDups.length : ℚ) / (words.length : ℚ)) (3/10)
       else 0)
    + (if ([":", "=", "->", "=>", "|"].map String.data).any
          (fun ind => pyContains text ind)
       then 1/5 else 0)
  min richness 1

/-- Embeds `DocumentProcessor._calculate_chunk_quality_score`: the sequential
float `+=` bonuses, as one exact rational sum. -/
def calculate_chunk_quality_score (content : List Char) : ℚ :=
  let sentences := pySplitOn '.' content
  let words := pySplit content
  let quality : ℚ :=
    (if sentences.length > 1 then
       let nonEmpty := sentences.filter (fun s => !(pyStrip s).isEmpty)
       let avg : ℚ :=
         ((nonEmpty.map (fun s => ((pySplit s).length : ℚ))).sum) /
           (max 1 nonEmpty.length : ℚ)
       if 5 ≤ avg ∧ avg ≤ 30 then 3/10 else 0
     else 0)
    + (if !words.isEmpty then
         let avgWordLen : ℚ :=
           ((words.map (fun w => (w.length : ℚ))).sum) / (words.length : ℚ)
         if 3 ≤ avgWordLen ∧ avgWordLen ≤ 8 then 1/5 else 0
       else 0)
    + (if !words.isEmpty ∧
          ((words.map pyLower).eraseDups.length : ℚ) / (words.length : ℚ) > 3/5
       then 1/5 else 0)
    + (if ([':', ';', '(', ')', '[', ']'] : List Char).any
          (fun c => pyContains content [c])
       then 1/10 else 0)
    + (if has_technical_terms content then 1/10 else 0)
    + (if form_field_search content then 1/10 else 0)
  min quality 1

/-! ## Chunker (`DocumentProcessor._create_chunks` and helpers) -/

/-- The chunking configuration attributes set in `DocumentProcessor.__init__`
(`chunk_size`, `chunk_overlap`, `min_chunk_size`; the last is never read by
`_create_chunks`). -/
structure ChunkConfig where
  chunk_size : Nat
  chunk_overlap : Nat
  min_chunk_size : Nat
deriving DecidableEq, Repr

/-- The values assigned in `DocumentProcessor.__init__`. -/
def defaultChunkConfig : ChunkConfig :=
  { chunk_size := 1500, chunk_overlap := 400, min_chunk_size := 300 }

/-- Python slice `text[a:b]`. -/
def pySlice (s : List Char) (a b : Nat) : List Char :=
  (s.take b).drop a

/-- Regex `re.sub(r'\n\n+', '\n\n', text)`: collapse runs of two or more
newlines to exactly two (single pass counting consecutive newlines). -/
def collapseNewlinesGo (nl : Nat) : List Char → List Char
  | [] => []
  | c :: rest =>
    if c = '\n' then
      if nl < 2 then '\n' :: collapseNewlinesGo (nl + 1) rest
      else collapseNewlinesGo nl rest
    else c :: collapseNewlinesGo 0 rest

def collapseNewlines (s : List Char) : List Char :=
  collapseNewlinesGo 0 s

/-- One line of the MULTILINE substitution
`re.sub(r'^([A-Za-z][A-Za-z\s]*:)\s*$', r'\1 [FIELD_LABEL]', ...)`:
the character class excludes the colon, so a matching line consists of a
letter-initial run of letters and whitespace, its first colon, and then
only whitespace; the trailing whitespace is replaced by the marker. -/
def fieldLabelLine (l : List Char) : List Char :=
  let pre := l.takeWhile (fun c => c ≠ ':')
  let post := l.dropWhile (fun c => c ≠ ':')
  match post with
  | ':' :: trail =>
    if !pre.isEmpty && (pre.headD ' ').isAlpha &&
        pre.all (fun c => c.isAlpha || isPySpace c) &&
        trail.all isPySpace then
      pre ++ [':'] ++ " [FIELD_LABEL]".data
    else l
  | _ => l

def markFieldLabels (t : List Char) : List Char :=
  List.intercalate ['\n'] ((pyLines t).map fieldLabelLine)

/-- Regex `re.sub(r'(\[TABLE DATA\].*?\[/TABLE DATA\])', r'\1 [STRUCTURED_CONTENT]',
text, flags=re.DOTALL)` as a character-level state machine: outside a block,
an opening tag switches to inside; inside, the nearest closing tag is copied
(the countdown argument) and the marker inserted after it. -/
def markTableDataGo : Nat → Bool → List Char → List Char
  | _, _, [] => []
  | k+1, _, c :: rest =>
    c :: (if k = 0 then " [STRUCTURED_CONTENT]".data ++ markTableDataGo 0 false rest
          else markTableDataGo k true rest)
  | 0, inside, c :: rest =>
    if !inside && startsWith "[TABLE DATA]".data (c :: rest) then
      c :: markTableDataGo 0 true rest
    else if inside && startsWith "[/TABLE DATA]".data (c :: rest) then
      c :: markTableDataGo ("[/TABLE DATA]".length - 1) true rest
    else
      c :: markTableDataGo 0 inside rest

def markTableData (t : List Char) : List Char :=
  markTableDataGo 0 false t

/-- Embeds `DocumentProcessor._prepare_text_for_chunking`. -/
def prepare_text_for_chunking (text : List Char) : List Char :=
  let t1 := pyReplace text "\r\n".data "\n".data
  let t2 := pyReplace t1 "\r".data "\n".data
  let t3 := collapseNewlines t2
  let t4 := markFieldLabels t3
  let t5 := markTableData t4
  pyStrip t5

/-! Matchers for the boundary regular expressions.  A matcher returns the
match length at the current position, or none; `allMatches` lists the
(start, end) pairs of the non-overlapping left-to-right matches exactly as
`re.finditer` produces them. -/

def mNN : List Char → Option Nat
  | '\n' :: '\n' :: _ => some 2
  | _ => none

/-- Regex `\.\s+[A-Z]` (the greedy whitespace run is the only viable one). -/
def mDotSpCap : List Char → Option Nat
  | '.' :: rest =>
    let ws := rest.takeWhile isPySpace
    if !ws.isEmpty && ((rest.dropWhile isPySpace).headD ' ').isUpper then
      some (1 + ws.length + 1)
    else none
  | _ => none

def mDotNl : List Char → Option Nat
  | '.' :: '\n' :: _ => some 2
  | _ => none

def mNl : List Char → Option Nat
  | '\n' :: _ => some 1
  | _ => none

def mDotSp : List Char → Option Nat
  | '.' :: c :: _ => if isPySpace c then some 2 else none
  | _ => none

def mSemiSp : List Char → Option Nat
  | ';' :: c :: _ => if isPySpace c then some 2 else none
  | _ => none

def mCommaSp : List Char → Option Nat
  | ',' :: c :: _ => if isPySpace c then some 2 else none
  | _ => none

def mSp : List Char → Option Nat
  | c :: _ => if isPySpace c then some 1 else none
  | _ => none

def allMatchesGo (m : List Char → Option Nat) :
    Nat → Nat → List Char → List (Nat × Nat)
  | 0, _, _ => []
  | _ + 1, _, [] => []
  | fuel + 1, pos, c :: rest =>
    match m (c :: rest) with
    | some len =>
      (pos, pos + len) ::
        allMatchesGo m fuel (pos + max len 1) ((c :: rest).drop (max len 1))
    | none => allMatchesGo m fuel (pos + 1) rest

def allMatches (m : List Char → Option Nat) (s : List Char) : List (Nat × Nat) :=
  allMatchesGo m s.length 0 s

/-- Start offset of the last `finditer` match, if any. -/
def lastMatchStart (m : List Char → Option Nat) (s : List Char) : Option Nat :=
  ((allMatches m s).getLast?).map Prod.fst

/-- Embeds `DocumentProcessor._find_optimal_chunk_boundary`: try the boundary
patterns in priority order on the tail window and cut after the last match
of the first pattern that occurs, with the pattern's fixed cut offset. -/
def find_optimal_chunk_boundary (chunk_size : Nat) (text : List Char)
    (start end_ text_length : Nat) : List Char × Nat :=
  if end_ ≥ text_length then (pySlice text start end_, end_)
  else
    let chunk_text := pySlice text start end_
    let search_start := max (start + 3 * chunk_size / 4) (start + chunk_size / 2)
    let search_text := pySlice text search_start end_
    let cutAt : Nat → Nat → List Char × Nat := fun p off =>
      (pySlice text start (search_start + p + off), search_start + p + off)
    match lastMatchStart mNN search_text with
    | some p => cutAt p 2
    | none =>
    match lastMatchStart mDotSpCap search_text with
    | some p => cutAt p 2
    | none =>
    match lastMatchStart mDotNl search_text with
    | some p => cutAt p 2
    | none =>
    match lastMatchStart mNl search_text with
    | some p => cutAt p 1
    | none =>
    match lastMatchStart mDotSp search_text with
    | some p => cutAt p 2
    | none =>
    match lastMatchStart mSemiSp search_text with
    | some p => cutAt p 2
    | none =>
    match lastMatchStart mCommaSp search_text with
    | some p => cutAt p 2
    | none =>
    match lastMatchStart mSp search_text with
    | some p => cutAt p 1
    | none => (chunk_text, end_)

/-- Embeds `DocumentProcessor._is_valid_chunk`. -/
def is_valid_chunk (chunk_content : List Char) : Bool :=
  if chunk_content.isEmpty || (pyStrip chunk_content).length < 10 then false
  else
    let is_table_data := pyContains chunk_content "[TABLE DATA]".data ||
      pyCount chunk_content ['|'] > 3
    let is_structured_content := pyContains chunk_content "[STRUCTURED_CONTENT]".data
    let has_field_markers := pyContains chunk_content [':'] &&
      (["name", "number", "date", "model", "manufacturer", "format",
        "effective"].map String.data).any
        (fun f => pyContains (pyLower chunk_content) f)
    if is_table_data || is_structured_content || has_field_markers then true
    else
      let words := pySplit chunk_content
      if words.length < 3 then false
      else
        let alnumRatio : ℚ :=
          (chunk_content.countP (fun c => c.isAlphanum) : ℚ) /
            (chunk_content.length : ℚ)
        if alnumRatio < 3/10 then false
        else
          let asciiRatio : ℚ :=
            (chunk_content.countP (fun c => decide (c.toNat < 128)) : ℚ) /
              (chunk_content.length : ℚ)
          if asciiRatio < 7/10 then false
          else
            let encodingArtifacts :=
              ["â€", "Â", "ï¿½", "â–", "â€œ", "â€\x9d"].map String.data
            let artifact_count :=
              (encodingArtifacts.map (fun a => pyCount chunk_content a)).sum
            if artifact_count > 5 then false
            else
              let avgWordLen : ℚ :=
                ((words.map (fun w => (w.length : ℚ))).sum) / (words.length : ℚ)
              if avgWordLen < 3/2 || avgWordLen > 20 then false
              else
                let shortWords := (words.filter (fun w => w.length ≤ 2)).length
                let longWords := (words.filter (fun w => w.length > 25)).length
                if (shortWords : ℚ) / (words.length : ℚ) > 4/5 ||
                    (longWords : ℚ) / (words.length : ℚ) > 3/20 then false
                else
                  let uniqueChars := distinctCount
                    ((pyLower chunk_content).filter
                      (fun c => c ≠ ' ' && c ≠ '\n'))
                  if uniqueChars < 5 then false
                  else
                    let sentences := splitSentenceRuns chunk_content
                    if sentences.length > 1 then
                      let nonEmpty :=
                        sentences.filter (fun s => !(pyStrip s).isEmpty)
                      let avgSentLen : ℚ :=
                        ((nonEmpty.map
                          (fun s => ((pySplit s).length : ℚ))).sum) /
                          (max 1 nonEmpty.length : ℚ)
                      if avgSentLen < 2 || avgSentLen > 150 then false
                      else true
                    else true

/-- Chunk `content_type` values. -/
inductive ContentType where
  | text
  | form
  | list
  | structured
deriving DecidableEq, Repr

/-- One line of `re.search(r'.*:\s*[_\[\{]|.*:\s*$', c, re.MULTILINE)`:
some colon is followed, after optional whitespace, by one of `_ [ {` or by
the end of the line. -/
def fieldMarkLine : List Char → Bool
  | [] => false
  | c :: rest =>
    (c = ':' &&
      (let after := rest.dropWhile isPySpace
       after.isEmpty || after.headD ' ' = '_' || after.headD ' ' = '[' ||
         after.headD ' ' = '{'))
    || fieldMarkLine rest

def fieldRegexSearch (c : List Char) : Bool :=
  (pyLines c).any fieldMarkLine

/-- Regex `re.search(r'^\s*[\d\w]\.\s', c, re.MULTILINE)` checked at one line
start: optional whitespace, a single word character, a dot, whitespace. -/
def listCheckFrom (s : List Char) : Bool :=
  match s.dropWhile isPySpace with
  | c :: '.' :: d :: _ => isWordChar c && isPySpace d
  | _ => false

/-- The suffixes of `s` that begin just after a newline. -/
def tailsAfterNewline : List Char → List (List Char)
  | [] => []
  | c :: rest =>
    if c = '\n' then rest :: tailsAfterNewline rest else tailsAfterNewline rest

def listRegexSearch (s : List Char) : Bool :=
  (s :: tailsAfterNewline s).any listCheckFrom

/-- Embeds `DocumentProcessor._extract_chunk_metadata`:
`(has_structured_data, contains_fields, content_type)`. -/
def extract_chunk_metadata (c : List Char) :
    Bool × Bool × ContentType :=
  let has_structured_data :=
    pyContains c "[TABLE DATA]".data || pyContains c "[STRUCTURED_CONTENT]".data
  let ct0 : ContentType := if has_structured_data then .structured else .text
  let contains_fields := fieldRegexSearch c
  let ct1 := if contains_fields && ct0 = ContentType.text then ContentType.form else ct0
  let ct2 :=
    if listRegexSearch c && ct1 = ContentType.text then ContentType.list else ct1
  (has_structured_data, contains_fields, ct2)

/-- Distance `abs(a - b)` on naturals. -/
def natDist (a b : Nat) : Nat :=
  max a b - min a b

/-- Python `min(matches, key=lambda m: abs(m.start() - target))`: the first
match with minimal distance. -/
def minByDist (target : Nat) (ms : List (Nat × Nat)) : Option (Nat × Nat) :=
  ms.foldl
    (fun best m =>
      match best with
      | none => some m
      | some b => if natDist m.1 target < natDist b.1 target then some m else some b)
    none

/-- Embeds `DocumentProcessor._calculate_next_start`: choose the next window start
near `current_end - overlap`, snapped to the closest natural boundary found
in a ±50-character window. -/
def calculate_next_start (overlap : Nat) (text : List Char)
    (current_start current_end : Nat) : Nat :=
  let basic_next_start := max (current_end - overlap) (current_start + 1)
  let search_start := max (basic_next_start - 50) (current_start + 1)
  let search_end := min (basic_next_start + 50) text.length
  let search_text := pySlice text search_start search_end
  let target := basic_next_start - search_start
  match allMatches mNN search_text with
  | m :: ms =>
    search_start + ((minByDist target (m :: ms)).map Prod.snd).getD 0
  | [] =>
  match allMatches mDotSpCap search_text with
  | m :: ms =>
    search_start + ((minByDist target (m :: ms)).map Prod.snd).getD 0
  | [] =>
  match allMatches mNl search_text with
  | m :: ms =>
    search_start + ((minByDist target (m :: ms)).map Prod.snd).getD 0
  | [] =>
  match allMatches mDotSp search_text with
  | m :: ms =>
    search_start + ((minByDist target (m :: ms)).map Prod.snd).getD 0
  | [] => basic_next_start

/-- A produced chunk record (the dictionary appended by `_create_chunks`).
The `semantic_keywords`, `position_info` and `coverage_info` entries are
retrieval-diagnostic metadata not used by any verified property and are
omitted. -/
structure Chunk where
  chunk_id : Nat
  content : List Char
  start_index : Nat
  end_index : Nat
  word_count : Nat
  has_structured_data : Bool
  contains_fields : Bool
  content_type : ContentType
  importance_score : ℚ
  entity_density : ℚ
  information_richness : ℚ
  chunk_quality_score : ℚ
deriving DecidableEq, Repr

/-- The chunk dictionary built for a valid chunk, with the metadata of
`_extract_chunk_metadata` and `_enhance_chunk_metadata`. -/
def mkChunkRecord (chunk_id : Nat) (content : List Char)
    (start actual_end : Nat) : Chunk :=
  let md := extract_chunk_metadata content
  { chunk_id := chunk_id
    content := content
    start_index := start
    end_index := actual_end
    word_count := (pySplit content).length
    has_structured_data := md.1
    contains_fields := md.2.1
    content_type := md.2.2
    importance_score := calculate_importance_score content
    entity_density := calculate_entity_density content
    information_richness := calculate_information_richness content
    chunk_quality_score := calculate_chunk_quality_score content }

/-- The `while start < text_length` loop of `_create_chunks`, on the
prepared text.  Every iteration advances `start` by at least one, so the
loop runs at most `cleaned.length` times; the fuel argument (instantiated
with `cleaned.length` at the call site) makes the recursion structural
without changing the produced chunks. -/
def create_chunks_loopF (cfg : ChunkConfig) (cleaned : List Char) :
    Nat → Nat → Nat → List Chunk
  | 0, _, _ => []
  | fuel + 1, start, chunk_id =>
    if start < cleaned.length then
      let end_ := min (start + cfg.chunk_size) cleaned.length
      let fb := find_optimal_chunk_boundary cfg.chunk_size cleaned
        start end_ cleaned.length
      let chunk_content := pyStrip fb.1
      let actual_end := fb.2
      let next_start := calculate_next_start cfg.chunk_overlap cleaned
        start actual_end
      let start2 := if next_start ≤ start then start + 1 else next_start
      if is_valid_chunk chunk_content then
        mkChunkRecord chunk_id chunk_content start actual_end ::
          create_chunks_loopF cfg cleaned fuel start2 (chunk_id + 1)
      else
        create_chunks_loopF cfg cleaned fuel start2 chunk_id
    else []

def create_chunks_loop (cfg : ChunkConfig) (cleaned : List Char)
    (start chunk_id : Nat) : List Chunk :=
  create_chunks_loopF cfg cleaned (cleaned.length - start) start chunk_id

/-- Stable descending sort by a rational key (insertion sort): an element
is placed before the first element of strictly smaller key, so elements
with equal keys keep their original relative order — the behaviour of
Python `list.sort(key=..., reverse=True)`. -/
def insertDescBy (key : α → ℚ) (x : α) : List α → List α
  | [] => [x]
  | y :: ys =>
    if key y > key x then y :: insertDescBy key x ys else x :: y :: ys

def sortDescBy (key : α → ℚ) (l : List α) : List α :=
  l.foldr (insertDescBy key) []

/-- Embeds `DocumentProcessor._post_process_chunks`: stable sort by importance
score, highest first (the `coverage_info` bookkeeping it also performs is
diagnostic metadata, omitted). -/
def post_process_chunks (chunks : List Chunk) : List Chunk :=
  if chunks.isEmpty then chunks
  else sortDescBy Chunk.importance_score chunks

/-- Embeds `DocumentProcessor._create_chunks`. -/
def create_chunks (cfg : ChunkConfig) (text : List Char) : List Chunk :=
  if text.isEmpty || (pyStrip text).length = 0 then []
  else
    let cleaned := prepare_text_for_chunking text
    post_process_chunks (create_chunks_loop cfg cleaned 0 0)

/-! ## Multi-query retrieval (`enhanced_rag_accuracy.ComprehensiveDocumentRetriever`) -/

/-- The `EnhancedRAGConfig` constants read by the retriever. -/
def INITIAL_RETRIEVAL_COUNT : Nat := 15
def MULTI_QUERY_COUNT : Nat := 3
def FINAL_CONTEXT_COUNT : Nat := 10
def MIN_CONFIDENCE_CRITICAL : ℚ := 4/5
def MIN_CONFIDENCE_HIGH : ℚ := 7/10
def MIN_CONFIDENCE_ACCEPTABLE : ℚ := 11/20

/-- Embeds `app.models.VectorSearchResult` together with the metadata keys the
retrieval code reads from it.  The dictionary lookups
`metadata.get('chunk_quality_score', 0.5)`, `metadata.get('importance_score',
0.5)` and `metadata.get('has_form_fields', False)` are modelled as total
fields holding the looked-up (or default) value. -/
structure VectorSearchResult where
  content : List Char
  score : ℚ
  chunk_quality_score : ℚ
  importance_score : ℚ
  has_form_fields : Bool
deriving DecidableEq, Repr

/-- The fingerprint used by `_deduplicate_results`:
`hash(result.content[:200])`.  The Python `hash` builtin is an
uninterpreted function parameter. -/
def dedup_fingerprint (pyHash : List Char → Int) (r : VectorSearchResult) : Int :=
  pyHash (r.content.take 200)

/-- The loop of `ComprehensiveDocumentRetriever._deduplicate_results`:
`seen_content` is the set of fingerprints already kept. -/
def deduplicate_results_go (pyHash : List Char → Int) (seen : List Int) :
    List VectorSearchResult → List VectorSearchResult
  | [] => []
  | r :: rest =>
    let h := dedup_fingerprint pyHash r
    if h ∈ seen then deduplicate_results_go pyHash seen rest
    else r :: deduplicate_results_go pyHash (h :: seen) rest

def deduplicate_results (pyHash : List Char → Int)
    (results : List VectorSearchResult) : List VectorSearchResult :=
  deduplicate_results_go pyHash [] results

/-- Embeds `ComprehensiveDocumentRetriever._is_content_high_quality`. -/
def is_content_high_quality (content : List Char) : Bool :=
  let c := pyStrip content
  if c.length < 10 then false
  else if (pySplit c).length < 2 then false
  else
    let special_char_ratio : ℚ :=
      (c.countP (fun ch =>
        !ch.isAlphanum && !isPySpace ch &&
          !(".,;:-()[]{}|/".data.contains ch)) : ℚ) / (c.length : ℚ)
    if special_char_ratio > 1/2 then false
    else if pyContains c "[STRUCTURED_CONTENT]".data ||
        pyContains c "[TABLE DATA]".data then true
    else true

/-- The stop-word set of `_is_relevant_to_query`. -/
def stop_words : List (List Char) :=
  ["the", "a", "an", "and", "or", "but", "in", "on", "at", "to", "for",
   "of", "with", "by", "is", "are", "was", "were", "be", "been", "have",
   "has", "had", "do", "does", "did", "will", "would", "could",
   "should"].map String.data

/-- The stop-word-filtered keyword sets and their overlap ratio, as computed
by `_is_relevant_to_query` (Python sets modelled as deduplicated lists). -/
def query_keywords (s : List Char) : List (List Char) :=
  ((pySplit (pyLower s)).eraseDups).filter (fun w => w ∉ stop_words)

def keyword_overlap_ratio (content query : List Char) : ℚ :=
  let qw := query_keywords query
  let cw := query_keywords content
  let overlap := (qw.filter (fun w => w ∈ cw)).length
  if qw.isEmpty then 0 else (overlap : ℚ) / (qw.length : ℚ)

/-- Embeds `ComprehensiveDocumentRetriever._is_relevant_to_query`. -/
def is_relevant_to_query (content query : List Char) : Bool :=
  keyword_overlap_ratio content query > 1/20 || (pySplit content).length > 50

/-- Embeds `ComprehensiveDocumentRetriever._apply_comprehensive_filtering`:
the loop with its three `continue` filters. -/
def apply_comprehensive_filtering (results : List VectorSearchResult)
    (original_query : List Char) : List VectorSearchResult :=
  match results with
  | [] => []
  | r :: rest =>
    if r.score < MIN_CONFIDENCE_ACCEPTABLE then
      apply_comprehensive_filtering rest original_query
    else if !is_content_high_quality r.content then
      apply_comprehensive_filtering rest original_query
    else if !is_relevant_to_query r.content original_query then
      apply_comprehensive_filtering rest original_query
    else r :: apply_comprehensive_filtering rest original_query

/-- Keep-first deduplication by lowercased text, as in the tail of
`_generate_fallback_variations`. -/
def dedup_by_lower_go (seen : List (List Char)) :
    List (List Char) → List (List Char)
  | [] => []
  | v :: rest =>
    if pyLower v ∈ seen then dedup_by_lower_go seen rest
    else v :: dedup_by_lower_go (pyLower v :: seen) rest

def dedup_by_lower (l : List (List Char)) : List (List Char) :=
  dedup_by_lower_go [] l

/-- The variation list built by `_generate_fallback_variations` before
deduplication; it always starts with the original query. -/
def fallback_variation_pool (original_query : List Char) : List (List Char) :=
  let base_query := pyLower original_query
  let v0 := [original_query]
  let v1 :=
    if pyContains base_query "what".data then
      v0 ++ [pyReplace original_query "what".data "which".data,
        "Find information about ".data ++
          pyReplace (pyReplace original_query "what is".data [])
            "what are".data [],
        "Details on ".data ++
          pyReplace (pyReplace original_query "what is".data [])
            "what are".data []]
    else v0
  let v2 :=
    if pyContains base_query "device".data then
      v1 ++ [pyReplace original_query "device".data "product".data,
        pyReplace original_query "device".data "equipment".data,
        pyReplace original_query "device".data "system".data]
    else v1
  let v3 :=
    if pyContains original_query "?".data then
      v2 ++ ["Information about ".data ++ pyReplace original_query "?".data [],
        "Details on ".data ++ pyReplace original_query "?".data [],
        "Describe ".data ++ pyReplace original_query "?".data []]
    else v2
  v3 ++ ["Technical specifications for ".data ++ original_query,
    "Documentation about ".data ++ original_query]

/-- Embeds `ComprehensiveDocumentRetriever._generate_fallback_variations`. -/
def generate_fallback_variations (original_query : List Char) :
    List (List Char) :=
  (dedup_by_lower (fallback_variation_pool original_query)).take
    MULTI_QUERY_COUNT

/-- Embeds `ComprehensiveDocumentRetriever.generate_query_variations`.  The
generative backend is external: `available` is
`self.gemini_service.available` and `parsed` is the JSON-decoded response
(`none` models both `json.JSONDecodeError` and a non-list response). -/
def generate_query_variations (available : Bool)
    (parsed : Option (List (List Char))) (original_query : List Char) :
    List (List Char) :=
  if !available then generate_fallback_variations original_query
  else
    match parsed with
    | some variations =>
      if variations.length ≥ 3 then
        original_query :: variations.take (MULTI_QUERY_COUNT - 1)
      else generate_fallback_variations original_query
    | none => generate_fallback_variations original_query

/-- Embeds `ComprehensiveDocumentRetriever._fallback_retrieval`: one search with
the original query's embedding (the embedding call and vector search are
the external `search` oracle, the same one used per variation). -/
def fallback_retrieval (search : List Char → List VectorSearchResult)
    (query : List Char) : List VectorSearchResult :=
  search query

/-- Embeds `ComprehensiveDocumentRetriever.comprehensive_retrieval`.  `search`
maps a query-variation string to the results of embedding it and querying
the vector index (external); `excRaised` models whether the body raised an
exception, which is the only path to `_fallback_retrieval`.  The returned
statistics dictionary is diagnostic and omitted. -/
def comprehensive_retrieval (search : List Char → List VectorSearchResult)
    (pyHash : List Char → Int) (available : Bool)
    (parsed : Option (List (List Char))) (excRaised : Bool)
    (query : List Char) : List VectorSearchResult :=
  if excRaised then fallback_retrieval search query
  else
    let query_variations := generate_query_variations available parsed query
    let all_results := query_variations.flatMap search
    let unique_results := deduplicate_results pyHash all_results
    let filtered_results := apply_comprehensive_filtering unique_results query
    (sortDescBy VectorSearchResult.score filtered_results).take
      FINAL_CONTEXT_COUNT

/-! ## Vector search post-processing (`PineconeService`) -/

/-- The weighted composite score of `_enhance_search_results`:
`similarity*0.6 + quality*0.25 + importance*0.15`. -/
def composite_score (r : VectorSearchResult) : ℚ :=
  r.score * (3/5) + r.chunk_quality_score * (1/4) + r.importance_score * (3/20)

/-- The diversity fingerprint of `_enhance_search_results`:
`hash(content[:100].lower().strip())`. -/
def content_fingerprint (pyHash : List Char → Int) (r : VectorSearchResult) :
    Int :=
  pyHash (pyStrip (pyLower (r.content.take 100)))

/-- The diversity loop of `_enhance_search_results`: walk the candidates in
composite-score order; admit when the fingerprint is unseen, or the
composite score exceeds 0.8, or the result has form fields; stop once
`target_count` results are admitted. -/
def diversity_pass_go (pyHash : List Char → Int) (target_count : Nat)
    (seen : List Int) (acc : List VectorSearchResult) :
    List VectorSearchResult → List VectorSearchResult
  | [] => acc
  | r :: rest =>
    let h := content_fingerprint pyHash r
    if h ∉ seen ∨ composite_score r > 4/5 ∨ r.has_form_fields then
      let acc2 := acc ++ [r]
      if acc2.length ≥ target_count then acc2
      else diversity_pass_go pyHash target_count (h :: seen) acc2 rest
    else diversity_pass_go pyHash target_count seen acc rest

/-- The shortfall backfill of `_enhance_search_results`: when fewer than
`target_count` diverse results were admitted, append the next best results
not already present, ignoring fingerprints. -/
def backfill_go (target_count : Nat) (acc : List VectorSearchResult) :
    List VectorSearchResult → List VectorSearchResult
  | [] => acc
  | r :: rest =>
    if r ∉ acc then
      let acc2 := acc ++ [r]
      if acc2.length ≥ target_count then acc2
      else backfill_go target_count acc2 rest
    else backfill_go target_count acc rest

/-- Embeds `PineconeService._enhance_search_results`. -/
def enhance_search_results (pyHash : List Char → Int)
    (search_results : List VectorSearchResult) (target_count : Nat) :
    List VectorSearchResult :=
  if search_results.isEmpty then search_results
  else
    let enhanced_results := sortDescBy composite_score search_results
    let diverse_results :=
      diversity_pass_go pyHash target_count [] [] enhanced_results
    let filled :=
      if diverse_results.length < target_count then
        backfill_go target_count diverse_results enhanced_results
      else diverse_results
    filled.take target_count

/-- A vector record of the local fallback store
(`_load_local_vectors`), with the metadata keys `search_vectors` reads. -/
structure LocalVector where
  values : List ℚ
  content : List Char
  chunk_quality_score : ℚ
  importance_score : ℚ
  has_form_fields : Bool
deriving DecidableEq, Repr

/-- The candidate stage of the local-storage path of
`PineconeService.search_vectors` (callers use the default
`filter_metadata=None`, `include_low_quality=False`): quality-filter the
stored vectors, score them with cosine similarity, sort descending and keep
the top `enhanced_top_k = min(top_k * 3, 50)`.  Cosine similarity over
numpy floats is not exactly representable, so `sim` is an uninterpreted
function parameter. -/
def search_vectors_candidates (sim : List ℚ → List ℚ → ℚ)
    (query_vector : List ℚ) (stored : List LocalVector) (top_k : Nat) :
    List VectorSearchResult :=
  let enhanced_top_k := min (top_k * 3) 50
  let similarities :=
    (stored.filter (fun v => v.chunk_quality_score ≥ 3/10)).map
      (fun v => (sim query_vector v.values, v))
  let sorted := sortDescBy Prod.fst similarities
  (sorted.take enhanced_top_k).map (fun p =>
    { content := p.2.content
      score := p.1
      chunk_quality_score := p.2.chunk_quality_score
      importance_score := p.2.importance_score
      has_form_fields := p.2.has_form_fields })

/-- Embeds `PineconeService.search_vectors`, local-storage path; `excRaised`
models the `except` branch, which returns the empty list. -/
def search_vectors (sim : List ℚ → List ℚ → ℚ) (pyHash : List Char → Int)
    (query_vector : List ℚ) (stored : List LocalVector) (top_k : Nat)
    (excRaised : Bool) : List VectorSearchResult :=
  if excRaised then []
  else if stored.isEmpty then []
  else
    enhance_search_results pyHash
      (search_vectors_candidates sim query_vector stored top_k) top_k

/-! ## Fallback embedding (`GeminiService`) -/

/-- Value of an ASCII hexadecimal digit, as accepted by `int(s, 16)`. -/
def hexVal (c : Char) : Nat :=
  if c.isDigit then c.toNat - 48
  else if c.isLower then c.toNat - 87
  else c.toNat - 55

/-- Python `int(s, 16)` on a hexadecimal digest prefix. -/
def hexToNat (s : List Char) : Nat :=
  s.foldl (fun acc c => 16 * acc + hexVal c) 0

/-- The global numpy RNG state; `np.random.seed(n)` resets it to a state
fully determined by `n`. -/
structure NumpyRandomState where
  seedValue : Nat
deriving DecidableEq, Repr

def np_random_seed (n : Nat) : NumpyRandomState :=
  { seedValue := n }

/-- Embeds `GeminiService._generate_fallback_embedding`: digest the text with MD5
(external `hashlib`), seed the global numpy RNG with the first 8 hex
digits, and draw a normalized 1024-dimensional Gaussian vector —
`normal_draw_normalized` is the external numpy computation
`np.random.normal(0, 1, 1024)` followed by division by its norm, a pure
function of the RNG state just set.  Returns the vector and the RNG state
the call leaves behind. -/
def generate_fallback_embedding (md5_hexdigest : List Char → List Char)
    (normal_draw_normalized : Nat → List ℚ) (_st : NumpyRandomState)
    (text : List Char) : List ℚ × NumpyRandomState :=
  let text_hash := md5_hexdigest text
  let seed := hexToNat (text_hash.take 8)
  let st2 := np_random_seed seed
  (normal_draw_normalized st2.seedValue, st2)

/-- Embeds `GeminiService._pad_or_truncate_embedding`. -/
def pad_or_truncate_embedding (embedding : List ℚ) (target_dim : Nat) :
    List ℚ :=
  if embedding.length = target_dim then embedding
  else if embedding.length < target_dim then
    embedding ++ List.replicate (target_dim - embedding.length) 0
  else embedding.take target_dim

/-- Embeds `GeminiService.get_embedding`: the provider path pads or truncates the
provider's vector to 1024; when the provider is unavailable the
hash-derived fallback embedding is returned. -/
def get_embedding (available : Bool)
    (provider_embedding : List Char → List ℚ)
    (md5_hexdigest : List Char → List Char)
    (normal_draw_normalized : Nat → List ℚ) (st : NumpyRandomState)
    (text : List Char) : List ℚ × NumpyRandomState :=
  if !available then
    generate_fallback_embedding md5_hexdigest normal_draw_normalized st text
  else
    (pad_or_truncate_embedding (provider_embedding text) 1024, st)

/-! ## Concrete instances used to witness and refute the claims -/

/-- A small chunking configuration (the claims quantify over the
configuration attributes). -/
def cfgSmall : ChunkConfig :=
  { chunk_size := 40, chunk_overlap := 10, min_chunk_size := 10 }

/-- A 70-character document whose second window contains a high-importance
form-field chunk (`date: 23`) while the first window is plain prose. -/
def docSmall : List Char :=
  "abc def ghi jkl mno pqr stu vwxyzab cdqu date: 23 fills qwertynasdhgfk".data

/-- The second chunk the loop produces on `docSmall` (importance 0.87). -/
def chunkHigh : Chunk :=
  mkChunkRecord 1 "u vwxyzab cdqu date: 23 fills qwertynasd".data 26 66

/-- A concrete stand-in for the Python `hash` builtin in counterexamples
(any fixed function works; collisions on equal inputs are what matters). -/
def hashLen (l : List Char) : Int :=
  (l.length : Int)

/-- Duplicate-content retrieval results: the earlier one has the lower
similarity score. -/
def rDupA : VectorSearchResult :=
  { content := "identical stored content".data, score := 1/2,
    chunk_quality_score := 1/2, importance_score := 1/2,
    has_form_fields := false }

def rDupB : VectorSearchResult :=
  { content := "identical stored content".data, score := 9/10,
    chunk_quality_score := 1/2, importance_score := 1/2,
    has_form_fields := false }

/-- Duplicate-content candidates for the diversity pass, both with
composite score below the always-admit threshold and without form
fields. -/
def rDivA : VectorSearchResult :=
  { content := "shared diversity content".data, score := 7/10,
    chunk_quality_score := 1/2, importance_score := 1/2,
    has_form_fields := false }

def rDivB : VectorSearchResult :=
  { content := "shared diversity content".data, score := 3/5,
    chunk_quality_score := 1/2, importance_score := 1/2,
    has_form_fields := false }

/-- A single raw candidate whose similarity score is below the minimum
acceptable threshold. -/
def rLow : VectorSearchResult :=
  { content := "some stored low scoring content".data, score := 3/10,
    chunk_quality_score := 1/2, importance_score := 1/2,
    has_form_fields := false }

/-- A search oracle returning `rLow` for every query variation. -/
def searchLow : List Char → List VectorSearchResult :=
  fun _ => [rLow]

def queryMN : List Char :=
  "model number".data

/-- A candidate passing all three filters for the query `"model"`. -/
def rKeep : VectorSearchResult :=
  { content := "device specification details for the pulse oximeter model".data,
    score := 3/5, chunk_quality_score := 1/2, importance_score := 1/2,
    has_form_fields := false }

def queryModel : List Char :=
  "model".data

/-! ## Helper lemmas -/

theorem insertDescBy_perm {α : Type} (key : α → ℚ) (x : α) (l : List α) :
    (insertDescBy key x l).Perm (x :: l) := by
  induction l with
  | nil => exact List.Perm.refl _
  | cons y ys ih =>
    simp only [insertDescBy]
    split
    · exact (ih.cons y).trans (List.Perm.swap x y ys)
    · exact List.Perm.refl _

theorem sortDescBy_perm {α : Type} (key : α → ℚ) (l : List α) :
    (sortDescBy key l).Perm l := by
  induction l with
  | nil => exact List.Perm.refl _
  | cons a l ih =>
    exact (insertDescBy_perm key a (sortDescBy key l)).trans (ih.cons a)

theorem mem_sortDescBy {α : Type} {key : α → ℚ} {l : List α} {a : α} :
    a ∈ sortDescBy key l ↔ a ∈ l :=
  (sortDescBy_perm key l).mem_iff

theorem calculate_importance_score_ge (t : List Char) :
    1/2 ≤ calculate_importance_score t := by
  have h1 : (0:ℚ) ≤ ((highImportanceTerms.filter
      (fun term => pyContains (pyLower t) term)).length : ℚ) * (1/10) := by
    positivity
  have h2 : (0:ℚ) ≤ min ((floatNumCount t : ℚ) * (1/50)) (3/20) :=
    le_min (by positivity) (by norm_num)
  have h3 : (0:ℚ) ≤ min ((abbrevCount t : ℚ) * (3/100)) (1/10) :=
    le_min (by positivity) (by norm_num)
  simp only [calculate_importance_score]
  refine le_min ?_ (by norm_num)
  split_ifs <;> linarith

theorem calculate_importance_score_le (t : List Char) :
    calculate_importance_score t ≤ 1 := by
  simp only [calculate_importance_score]
  exact min_le_right _ _

theorem calculate_entity_density_bounds (t : List Char) :
    0 ≤ calculate_entity_density t ∧ calculate_entity_density t ≤ 1 := by
  simp only [calculate_entity_density]
  split
  · norm_num
  · constructor
    · exact le_min (by positivity) (by norm_num)
    · exact min_le_right _ _

theorem calculate_information_richness_bounds (t : List Char) :
    0 ≤ calculate_information_richness t ∧
      calculate_information_richness t ≤ 1 := by
  have h2 : (0:ℚ) ≤ min ((distinctCount (t.filter
      (fun c => ".,;:!?()[]{}".data.contains c)) : ℚ) * (1/20)) (3/10) :=
    le_min (by positivity) (by norm_num)
  have h3 : (0:ℚ) ≤ min (((pySplit (pyLower t)).eraseDups.length : ℚ) /
      ((pySplit (pyLower t)).length : ℚ)) (3/10) :=
    le_min (by positivity) (by norm_num)
  constructor
  · simp only [calculate_information_richness]
    refine le_min ?_ (by norm_num)
    split_ifs <;> linarith
  · simp only [calculate_information_richness]
    exact min_le_right _ _

theorem calculate_chunk_quality_score_bounds (t : List Char) :
    0 ≤ calculate_chunk_quality_score t ∧
      calculate_chunk_quality_score t ≤ 1 := by
  constructor
  · simp only [calculate_chunk_quality_score]
    refine le_min ?_ (by norm_num)
    split_ifs <;> linarith
  · simp only [calculate_chunk_quality_score]
    exact min_le_right _ _

theorem create_chunks_loopF_start_le (cfg : ChunkConfig) (cleaned : List Char) :
    ∀ fuel start id c, c ∈ create_chunks_loopF cfg cleaned fuel start id →
      start ≤ c.start_index := by
  intro fuel
  induction fuel with
  | zero => intro start id c hc; simp [create_chunks_loopF] at hc
  | succ fuel ih =>
    intro start id c hc
    simp only [create_chunks_loopF] at hc
    split at hc
    · split at hc
      · rcases List.mem_cons.mp hc with rfl | hc2
        · exact le_refl _
        · have h2 := ih _ _ _ hc2
          revert h2
          split <;> omega
      · have h2 := ih _ _ _ hc
        revert h2
        split <;> omega
    · simp at hc

theorem create_chunks_loopF_sorted (cfg : ChunkConfig) (cleaned : List Char) :
    ∀ fuel start id,
      ((create_chunks_loopF cfg cleaned fuel start id).map
        Chunk.start_index).Pairwise (· < ·) := by
  intro fuel
  induction fuel with
  | zero => intro start id; simp [create_chunks_loopF]
  | succ fuel ih =>
    intro start id
    simp only [create_chunks_loopF]
    split
    · split
      · refine List.Pairwise.cons ?_ (ih _ _)
        intro b hb
        rcases List.mem_map.mp hb with ⟨c, hc, rfl⟩
        have h2 := create_chunks_loopF_start_le cfg cleaned _ _ _ _ hc
        show start < c.start_index
        revert h2
        split <;> omega
      · exact ih _ _
    · simp

theorem create_chunks_loopF_scores (cfg : ChunkConfig) (cleaned : List Char) :
    ∀ fuel start id c, c ∈ create_chunks_loopF cfg cleaned fuel start id →
      c.importance_score = calculate_importance_score c.content ∧
      c.entity_density = calculate_entity_density c.content ∧
      c.information_richness = calculate_information_richness c.content ∧
      c.chunk_quality_score = calculate_chunk_quality_score c.content := by
  intro fuel
  induction fuel with
  | zero => intro start id c hc; simp [create_chunks_loopF] at hc
  | succ fuel ih =>
    intro start id c hc
    simp only [create_chunks_loopF] at hc
    split at hc
    · split at hc
      · rcases List.mem_cons.mp hc with rfl | hc2
        · exact ⟨rfl, rfl, rfl, rfl⟩
        · exact ih _ _ _ hc2
      · exact ih _ _ _ hc
    · simp at hc

theorem mem_create_chunks {cfg : ChunkConfig} {text : List Char} {c : Chunk}
    (hc : c ∈ create_chunks cfg text) :
    c ∈ create_chunks_loop cfg (prepare_text_for_chunking text) 0 0 := by
  unfold create_chunks at hc
  split at hc
  · simp at hc
  · simp only [post_process_chunks] at hc
    split at hc
    · exact hc
    · exact mem_sortDescBy.mp hc

/-! ## Claim theorems -/

unseal Rat.add Rat.mul Rat.inv Rat.sub in
/-- Claim C1 (refuted): the chunk list returned by the chunking operation
does NOT always have strictly increasing start offsets: on `docSmall` with
`cfgSmall` the returned order is the importance-sorted `[26, 0]`. -/
theorem claim_C1_counterexample :
    (create_chunks cfgSmall docSmall).map Chunk.start_index = [26, 0] ∧
    ¬ (((create_chunks cfgSmall docSmall).map Chunk.start_index).Pairwise
        (· < ·)) := by
  have h : (create_chunks cfgSmall docSmall).map Chunk.start_index
      = [26, 0] := by decide
  refine ⟨h, ?_⟩
  rw [h]
  intro hp
  have h2 := (List.pairwise_cons.mp hp).1 0 (by simp)
  omega

/-- Claim C1 (amended): the chunks as produced by the sliding-window loop
of `_create_chunks` have strictly increasing start offsets for every
configuration and input; `_post_process_chunks` then stably re-sorts them
by descending importance score, so the returned list is a permutation of
that start-ordered list but need not itself be start-ordered. -/
theorem claim_C1_amended (cfg : ChunkConfig) (text : List Char) :
    ((create_chunks_loop cfg (prepare_text_for_chunking text) 0 0).map
      Chunk.start_index).Pairwise (· < ·) ∧
    ∀ l : List Chunk, (post_process_chunks l).Perm l := by
  constructor
  · exact create_chunks_loopF_sorted cfg _ _ 0 0
  · intro l
    simp only [post_process_chunks]
    split
    · exact List.Perm.refl _
    · exact sortDescBy_perm _ _

/-- Claim C7: every chunk produced by the chunking pipeline has its
importance score, entity density, information richness and quality score
in the closed interval [0, 1]. -/
theorem claim_C7_score_bounds (cfg : ChunkConfig) (text : List Char)
    (c : Chunk) (hc : c ∈ create_chunks cfg text) :
    (0 ≤ c.importance_score ∧ c.importance_score ≤ 1) ∧
    (0 ≤ c.entity_density ∧ c.entity_density ≤ 1) ∧
    (0 ≤ c.information_richness ∧ c.information_richness ≤ 1) ∧
    (0 ≤ c.chunk_quality_score ∧ c.chunk_quality_score ≤ 1) := by
  obtain ⟨h1, h2, h3, h4⟩ :=
    create_chunks_loopF_scores cfg _ _ 0 0 c (mem_create_chunks hc)
  rw [h1, h2, h3, h4]
  exact ⟨⟨le_trans (by norm_num) (calculate_importance_score_ge _),
      calculate_importance_score_le _⟩,
    calculate_entity_density_bounds _,
    calculate_information_richness_bounds _,
    calculate_chunk_quality_score_bounds _⟩

unseal Rat.add Rat.mul Rat.inv Rat.sub in
/-- Witness for C7: a concrete produced chunk with all scores in [0, 1]. -/
theorem claim_C7_witness :
    chunkHigh ∈ create_chunks cfgSmall docSmall ∧
    ((0 ≤ chunkHigh.importance_score ∧ chunkHigh.importance_score ≤ 1) ∧
     (0 ≤ chunkHigh.entity_density ∧ chunkHigh.entity_density ≤ 1) ∧
     (0 ≤ chunkHigh.information_richness ∧
       chunkHigh.information_richness ≤ 1) ∧
     (0 ≤ chunkHigh.chunk_quality_score ∧
       chunkHigh.chunk_quality_score ≤ 1)) := by
  have hm : chunkHigh ∈ create_chunks cfgSmall docSmall := by decide
  exact ⟨hm, claim_C7_score_bounds cfgSmall docSmall chunkHigh hm⟩

/-- Claim C10: every chunk produced by the chunking pipeline has an
importance score in [0.5, 1]: the score starts at base 0.5, is only
incremented, and is capped at 1. -/
theorem claim_C10_importance_lower_bound (cfg : ChunkConfig)
    (text : List Char) (c : Chunk) (hc : c ∈ create_chunks cfg text) :
    1/2 ≤ c.importance_score ∧ c.importance_score ≤ 1 := by
  have h := (create_chunks_loopF_scores cfg _ _ 0 0 c
    (mem_create_chunks hc)).1
  rw [h]
  exact ⟨calculate_importance_score_ge _, calculate_importance_score_le _⟩

unseal Rat.add Rat.mul Rat.inv Rat.sub in
/-- Witness for C10: a concrete produced chunk with importance in
[0.5, 1]. -/
theorem claim_C10_witness :
    chunkHigh ∈ create_chunks cfgSmall docSmall ∧
    1/2 ≤ chunkHigh.importance_score ∧ chunkHigh.importance_score ≤ 1 := by
  have hm : chunkHigh ∈ create_chunks cfgSmall docSmall := by decide
  exact ⟨hm, claim_C10_importance_lower_bound cfgSmall docSmall chunkHigh hm⟩

theorem deduplicate_results_go_mem (pyHash : List Char → Int) :
    ∀ (rs : List VectorSearchResult) (seen : List Int)
      (r : VectorSearchResult),
      r ∈ deduplicate_results_go pyHash seen rs ↔
        dedup_fingerprint pyHash r ∉ seen ∧
          rs.find? (fun x => decide (dedup_fingerprint pyHash x =
            dedup_fingerprint pyHash r)) = some r := by
  intro rs
  induction rs with
  | nil => intro seen r; simp [deduplicate_results_go]
  | cons a rest ih =>
    intro seen r
    simp only [deduplicate_results_go]
    by_cases hfp : dedup_fingerprint pyHash a = dedup_fingerprint pyHash r
    · split
      · rename_i hseen
        rw [ih]
        have hrs : dedup_fingerprint pyHash r ∈ seen := hfp ▸ hseen
        simp [hrs]
      · rename_i hseen
        rw [List.find?_cons_of_pos _ (by simp [hfp])]
        simp only [List.mem_cons, ih]
        constructor
        · rintro (rfl | ⟨hnot, _⟩)
          · exact ⟨hfp ▸ hseen, rfl⟩
          · exact absurd (Or.inl hfp.symm) hnot
        · rintro ⟨_, heq⟩
          exact Or.inl (Option.some.inj heq).symm
    · have hne : List.find? (fun x => decide (dedup_fingerprint pyHash x =
          dedup_fingerprint pyHash r)) (a :: rest) =
          List.find? (fun x => decide (dedup_fingerprint pyHash x =
            dedup_fingerprint pyHash r)) rest := by
        simp [List.find?_cons, hfp]
      split
      · rw [ih, hne]
      · rw [hne]
        simp only [List.mem_cons, ih]
        constructor
        · rintro (rfl | ⟨hnot, hfind⟩)
          · exact absurd rfl hfp
          · exact ⟨fun hmem => hnot (Or.inr hmem), hfind⟩
        · rintro ⟨hnot, hfind⟩
          refine Or.inr ⟨?_, hfind⟩
          simp only [List.mem_cons, not_or]
          exact ⟨fun h => hfp h.symm, hnot⟩

unseal Rat.add Rat.mul Rat.inv Rat.sub in
/-- Claim C2 (refuted): deduplication does NOT keep the highest-scoring
member of a fingerprint group: on two results with identical content, the
first-seen lower-scoring one is kept. -/
theorem claim_C2_counterexample :
    deduplicate_results hashLen [rDupA, rDupB] = [rDupA] ∧
    rDupA.score < rDupB.score ∧
    dedup_fingerprint hashLen rDupA = dedup_fingerprint hashLen rDupB := by
  exact ⟨by decide, by decide, by decide⟩

/-- Claim C2 (amended): `_deduplicate_results` keeps, for every content
fingerprint group, exactly the first-seen member of the merged candidate
order (regardless of similarity score): a result is kept iff it is the
first element of the input carrying its fingerprint. -/
theorem claim_C2_amended (pyHash : List Char → Int)
    (results : List VectorSearchResult) (r : VectorSearchResult) :
    r ∈ deduplicate_results pyHash results ↔
      results.find? (fun x => decide (dedup_fingerprint pyHash x =
        dedup_fingerprint pyHash r)) = some r := by
  rw [deduplicate_results, deduplicate_results_go_mem]
  simp

unseal Rat.add Rat.mul Rat.inv Rat.sub in
/-- Witness for the amended C2 at a concrete input. -/
theorem claim_C2_amended_witness :
    rDupA ∈ deduplicate_results hashLen [rDupA, rDupB] :=
  (claim_C2_amended hashLen [rDupA, rDupB] rDupA).mpr (by decide)

theorem diversity_pass_go_pairwise (pyHash : List Char → Int) (t : Nat) :
    ∀ (rs : List VectorSearchResult) (seen : List Int)
      (acc : List VectorSearchResult),
      acc.Pairwise (fun a b =>
        content_fingerprint pyHash a = content_fingerprint pyHash b →
          composite_score b > 4/5 ∨ b.has_form_fields = true) →
      (∀ a ∈ acc, content_fingerprint pyHash a ∈ seen) →
      (diversity_pass_go pyHash t seen acc rs).Pairwise (fun a b =>
        content_fingerprint pyHash a = content_fingerprint pyHash b →
          composite_score b > 4/5 ∨ b.has_form_fields = true) := by
  intro rs
  induction rs with
  | nil =>
    intro seen acc hp hinv
    simpa [diversity_pass_go] using hp
  | cons r rest ih =>
    intro seen acc hp hinv
    simp only [diversity_pass_go]
    split
    · rename_i hcond
      have hacc2 : (acc ++ [r]).Pairwise (fun a b =>
          content_fingerprint pyHash a = content_fingerprint pyHash b →
            composite_score b > 4/5 ∨ b.has_form_fields = true) := by
        rw [List.pairwise_append]
        refine ⟨hp, List.pairwise_singleton _ _, ?_⟩
        intro a ha b hb
        simp only [List.mem_singleton] at hb
        subst hb
        intro hfp
        rcases hcond with hnot | hcomp | hff
        · exact absurd (hfp ▸ hinv a ha) hnot
        · exact Or.inl hcomp
        · exact Or.inr hff
      split
      · exact hacc2
      · refine ih _ _ hacc2 ?_
        intro a ha
        rcases List.mem_append.mp ha with h | h
        · exact List.mem_cons_of_mem _ (hinv a h)
        · simp only [List.mem_singleton] at h
          subst h
          exact List.mem_cons_self _ _
    · exact ih _ _ hp hinv

unseal Rat.add Rat.mul Rat.inv Rat.sub in
/-- Claim C3 (refuted): the final diversity-filtered result list CAN
contain two results with the same fingerprint where the later one neither
exceeds the always-admit composite threshold nor has form fields — the
shortfall backfill re-admits it. -/
theorem claim_C3_counterexample :
    enhance_search_results hashLen [rDivA, rDivB] 2 = [rDivA, rDivB] ∧
    content_fingerprint hashLen rDivA = content_fingerprint hashLen rDivB ∧
    ¬ (composite_score rDivB > 4/5) ∧
    rDivB.has_form_fields = false := by
  exact ⟨by decide, by decide, by decide, by decide⟩

/-- Claim C3 (amended): within the diversity pass proper (before the
shortfall backfill that pads the list up to the target count), no two
admitted results share a content fingerprint unless the later one's
composite score exceeds 0.8 or it is flagged as containing form fields. -/
theorem claim_C3_amended (pyHash : List Char → Int) (target : Nat)
    (results : List VectorSearchResult) :
    (diversity_pass_go pyHash target [] []
      (sortDescBy composite_score results)).Pairwise (fun a b =>
        content_fingerprint pyHash a = content_fingerprint pyHash b →
          composite_score b > 4/5 ∨ b.has_form_fields = true) :=
  diversity_pass_go_pairwise pyHash target _ [] [] List.Pairwise.nil
    (by simp)

/-- Witness for the amended C3 at a concrete input. -/
theorem claim_C3_amended_witness :
    (diversity_pass_go hashLen 2 [] []
      (sortDescBy composite_score [rDivA, rDivB])).Pairwise (fun a b =>
        content_fingerprint hashLen a = content_fingerprint hashLen b →
          composite_score b > 4/5 ∨ b.has_form_fields = true) :=
  claim_C3_amended hashLen 2 [rDivA, rDivB]

unseal Rat.add Rat.mul Rat.inv Rat.sub in
/-- Claim C4 (refuted): when filtering empties a non-empty raw candidate
pool, NO unfiltered fallback pass runs — the retrieval returns the empty
list. -/
theorem claim_C4_counterexample :
    comprehensive_retrieval searchLow hashLen false none false queryMN
      = [] ∧
    (generate_query_variations false none queryMN).flatMap searchLow
      ≠ [] := by
  exact ⟨by decide, by decide⟩

/-- Claim C4 (amended): the unfiltered fallback pass
(`_fallback_retrieval`) runs only when the retrieval body raises an
exception; when no exception occurs and the filter stage empties the
candidate pool, the returned list is empty. -/
theorem claim_C4_amended (search : List Char → List VectorSearchResult)
    (pyHash : List Char → Int) (available : Bool)
    (parsed : Option (List (List Char))) (query : List Char) :
    (apply_comprehensive_filtering
        (deduplicate_results pyHash
          ((generate_query_variations available parsed query).flatMap search))
        query = [] →
      comprehensive_retrieval search pyHash available parsed false query
        = []) ∧
    comprehensive_retrieval search pyHash available parsed true query =
      fallback_retrieval search query := by
  constructor
  · intro h
    simp only [comprehensive_retrieval, Bool.false_eq_true, if_false]
    rw [h]
    rfl
  · simp [comprehensive_retrieval]

unseal Rat.add Rat.mul Rat.inv Rat.sub in
/-- Witness for the amended C4 at a concrete input. -/
theorem claim_C4_witness :
    comprehensive_retrieval searchLow hashLen false none false queryMN
      = [] :=
  (claim_C4_amended searchLow hashLen false none queryMN).1 (by decide)

/-- Claim C5: a merged candidate survives the filter stage iff its
similarity score is at least the minimum acceptable threshold, its content
passes the quality check, and it passes the lexical-relevance check (the
stop-word-filtered keyword-overlap ratio exceeds 0.05, or the content has
more than 50 words as the fallback admit condition). -/
theorem claim_C5_filter_characterisation
    (results : List VectorSearchResult) (q : List Char) :
    (∀ r, r ∈ apply_comprehensive_filtering results q ↔
      r ∈ results ∧ MIN_CONFIDENCE_ACCEPTABLE ≤ r.score ∧
      is_content_high_quality r.content = true ∧
      is_relevant_to_query r.content q = true) ∧
    (∀ c, is_relevant_to_query c q =
      (decide (keyword_overlap_ratio c q > 1/20) ||
       decide ((pySplit c).length > 50))) := by
  constructor
  · intro r
    induction results with
    | nil => simp [apply_comprehensive_filtering]
    | cons a rest ih =>
      simp only [apply_comprehensive_filtering]
      split_ifs with h1 h2 h3
      · rw [ih]
        constructor
        · rintro ⟨hm, hp⟩
          exact ⟨List.mem_cons_of_mem _ hm, hp⟩
        · rintro ⟨hm, hscore, hq, hrel⟩
          rcases List.mem_cons.mp hm with rfl | hm2
          · exact absurd h1 (not_lt.mpr hscore)
          · exact ⟨hm2, hscore, hq, hrel⟩
      · rw [ih]
        constructor
        · rintro ⟨hm, hp⟩
          exact ⟨List.mem_cons_of_mem _ hm, hp⟩
        · rintro ⟨hm, hscore, hq, hrel⟩
          rcases List.mem_cons.mp hm with rfl | hm2
          · simp only [Bool.not_eq_true'] at h2
            rw [hq] at h2
            cases h2
          · exact ⟨hm2, hscore, hq, hrel⟩
      · rw [ih]
        constructor
        · rintro ⟨hm, hp⟩
          exact ⟨List.mem_cons_of_mem _ hm, hp⟩
        · rintro ⟨hm, hscore, hq, hrel⟩
          rcases List.mem_cons.mp hm with rfl | hm2
          · simp only [Bool.not_eq_true'] at h3
            rw [hrel] at h3
            cases h3
          · exact ⟨hm2, hscore, hq, hrel⟩
      · simp only [List.mem_cons, ih]
        constructor
        · rintro (rfl | ⟨hm, hp⟩)
          · refine ⟨Or.inl rfl, not_lt.mp h1, ?_, ?_⟩
            · simpa using h2
            · simpa using h3
          · exact ⟨Or.inr hm, hp⟩
        · rintro ⟨hm, hscore, hq, hrel⟩
          rcases hm with rfl | hm2
          · exact Or.inl rfl
          · exact Or.inr ⟨hm2, hscore, hq, hrel⟩
  · intro c
    rfl

unseal Rat.add Rat.mul Rat.inv Rat.sub in
/-- Witness for C5 at a concrete input: a candidate passing all three
filters is kept. -/
theorem claim_C5_witness :
    rKeep ∈ apply_comprehensive_filtering [rKeep] queryModel :=
  ((claim_C5_filter_characterisation [rKeep] queryModel).1 rKeep).mpr
    (by refine ⟨by decide, by decide, by decide, by decide⟩)

theorem enhance_search_results_length_le (pyHash : List Char → Int)
    (rs : List VectorSearchResult) (t : Nat) :
    (enhance_search_results pyHash rs t).length ≤ t := by
  simp only [enhance_search_results]
  split
  · rename_i h
    rw [List.isEmpty_iff] at h
    subst h
    simp
  · rw [List.length_take]
    omega

/-- Claim C9: the vector search returns at most `top_k` results; its
internal candidate stage over-retrieves at most `min(top_k * 3, 50)`
candidates; and the exception path returns the empty list. -/
theorem claim_C9_topk_bound (sim : List ℚ → List ℚ → ℚ)
    (pyHash : List Char → Int) (query_vector : List ℚ)
    (stored : List LocalVector) (top_k : Nat) (excRaised : Bool) :
    (search_vectors sim pyHash query_vector stored top_k excRaised).length
      ≤ top_k ∧
    (search_vectors_candidates sim query_vector stored top_k).length ≤
      min (top_k * 3) 50 ∧
    (excRaised = true →
      search_vectors sim pyHash query_vector stored top_k excRaised = []) := by
  refine ⟨?_, ?_, ?_⟩
  · simp only [search_vectors]
    split
    · simp
    · split
      · simp
      · exact enhance_search_results_length_le _ _ _
  · simp only [search_vectors_candidates]
    rw [List.length_map, List.length_take]
    exact min_le_left _ _
  · intro h
    simp [search_vectors, h]

/-- Witness for C9 at a concrete input (exception path). -/
theorem claim_C9_witness :
    search_vectors (fun _ _ => 0) hashLen [] [] 5 true = [] :=
  (claim_C9_topk_bound (fun _ _ => 0) hashLen [] [] 5 true).2.2 rfl

/-- Claim C6: the fallback embedding is deterministic — it is independent
of the incoming global numpy RNG state (so repeated calls on the same text
return identical vectors), it is exactly the normalized draw from the seed
derived from the MD5 digest of the text, and `get_embedding` uses it
whenever the provider is unavailable. -/
theorem claim_C6_fallback_deterministic
    (md5_hexdigest : List Char → List Char)
    (normal_draw_normalized : Nat → List ℚ)
    (provider_embedding : List Char → List ℚ)
    (st st' : NumpyRandomState) (text : List Char) :
    (generate_fallback_embedding md5_hexdigest normal_draw_normalized st
        text).1 =
      (generate_fallback_embedding md5_hexdigest normal_draw_normalized st'
        text).1 ∧
    (generate_fallback_embedding md5_hexdigest normal_draw_normalized st
        text).1 =
      normal_draw_normalized (hexToNat ((md5_hexdigest text).take 8)) ∧
    get_embedding false provider_embedding md5_hexdigest
        normal_draw_normalized st text =
      generate_fallback_embedding md5_hexdigest normal_draw_normalized st
        text :=
  ⟨rfl, rfl, rfl⟩

theorem fallback_pool_head (q : List Char) :
    ∃ tail, fallback_variation_pool q = q :: tail := by
  simp only [fallback_variation_pool]
  split_ifs <;> exact ⟨_, rfl⟩

theorem generate_fallback_variations_head (q : List Char) :
    (generate_fallback_variations q).head? = some q := by
  obtain ⟨tail, htail⟩ := fallback_pool_head q
  simp only [generate_fallback_variations, htail]
  simp [dedup_by_lower, dedup_by_lower_go, MULTI_QUERY_COUNT]

/-- Claim C8: query expansion always returns a non-empty list whose first
element is the original query, in the generative path and in the
rule-based fallback path alike. -/
theorem claim_C8_head_original (available : Bool)
    (parsed : Option (List (List Char))) (q : List Char) :
    (generate_query_variations available parsed q).head? = some q ∧
    generate_query_variations available parsed q ≠ [] ∧
    (generate_fallback_variations q).head? = some q := by
  have hf := generate_fallback_variations_head q
  have hmain :
      (generate_query_variations available parsed q).head? = some q := by
    simp only [generate_query_variations]
    split
    · exact hf
    · split
      · split
        · rfl
        · exact hf
      · exact hf
  refine ⟨hmain, ?_, hf⟩
  intro hnil
  rw [hnil] at hmain
  simp at hmain
